import Mathlib

/-!
Verification of the fpDSP fixed-point DSP library (DSP.h / samples.h / samples.cpp)
against its natural-language specification.

The C code is shallowly embedded: machine integers become `Nat`/`Int` with
explicit reductions modulo `2^w` where the C types wrap (`uint8_t`, `uint16_t`,
`uint32_t`), signed C division (which truncates toward zero) becomes `Int.tdiv`,
and the two's-complement arithmetic shift of a 32-bit value is modelled on its
unsigned bit pattern.  The circular `SampleBuffer` of samples.cpp becomes a
structure with a 256-slot store and two wrapping `uint8_t` indices.
-/

/-! ### Fixed point constants (DSP.h) -/

def Q15_ZERO : Int := 0x0000

def Q15_ONE : Int := 0x7FFF

/-! ### BAM constants (DSP.h) -/

def BAM16_PI_RADIANS : Nat := 0x8000

def BAM16_0_DEGREES : Nat := 0x0000

def BAM16_270_DEGREES : Nat := 0xC000

def BAM16_180_DEGREES : Nat := BAM16_PI_RADIANS

def BAM16_90_DEGREES : Nat := 0x4000

def BAM16_45_DEGREES : Nat := BAM16_90_DEGREES / 2

/-! ### BAM conversions (DSP.h)

`DEG2BAM16(X)` is `((BAM16)(((X)*BAM16_45_DEGREES)/45))`: the product and the
division are signed C arithmetic (division truncates toward zero, `Int.tdiv`),
and the final cast to the unsigned 16-bit `BAM16` reduces modulo `2^16`
(`Int.emod` by 65536 yields the nonnegative representative). -/

def DEG2BAM16 (x : Int) : Nat := ((x * (BAM16_45_DEGREES : Int)).tdiv 45 % 65536).toNat

/-- `BAM8toBAM16(X)` is `((BAM16)((X)<<8))`: shift left 8, cast to `uint16_t`. -/
def BAM8toBAM16 (x : Nat) : Nat := (x <<< 8) % 65536

/-- `BAM16toBAM8(X)` is `((BAM8)((X)>>8))`: shift right 8, cast to `uint8_t`. -/
def BAM16toBAM8 (x : Nat) : Nat := (x >>> 8) % 256

/-- `FREQUENCY_HZtoBAM16_PER_SAMPLE(HZ, SAMPLE_RATE)` is
`((BAM16)(((uint32_t)(HZ) << 16)/(SAMPLE_RATE)))`: the shifted value wraps at
`2^32` as `uint32_t`, unsigned division truncates, and the cast to `BAM16`
reduces modulo `2^16`. -/
def FREQUENCY_HZtoBAM16_PER_SAMPLE (hz sampleRate : Nat) : Nat :=
  ((hz <<< 16) % 4294967296 / sampleRate) % 65536

/-- Modelled from the spec: the spec's contract for the frequency conversion is
`increment = round(HZ * 2^16 / SAMPLE_RATE)`, the quotient rounded to the
nearest integer (half rounds up), reduced to 16 bits.  This definition follows
the spec's words and exists only to be compared with the source-derived
`FREQUENCY_HZtoBAM16_PER_SAMPLE`. -/
def FREQUENCY_HZtoBAM16_PER_SAMPLE_specRound (hz sampleRate : Nat) : Nat :=
  ((hz * 65536 + sampleRate / 2) / sampleRate) % 65536

/-! ### BAM16 angle arithmetic

BAM16 values are `uint16_t`; C unsigned addition and subtraction reduce
modulo `2^16` (subtraction adds the two's complement of the subtrahend). -/

def BAM16_add (a b : Nat) : Nat := (a + b) % 65536

def BAM16_sub (a b : Nat) : Nat := (a + (65536 - b % 65536)) % 65536

/-! ### Q15 multiplication (DSP.h)

`Q15_mult(A,B)` is `((((int32_t)(A))*((int32_t)(B)))>>15)`.  Both operands are
widened to `int32_t`, so for 16-bit operands the product is exact; `>> 15` on
the signed 32-bit product is an arithmetic shift, modelled here on the
two's-complement bit pattern of the product: the pattern is shifted right 15
and the top 15 bits are filled with copies of the sign bit. -/

/-- The `uint32_t` bit pattern of an `int32_t` value (two's complement). -/
def toUInt32bits (z : Int) : Nat := (z % 4294967296).toNat

/-- The `int32_t` value of a `uint32_t` bit pattern (two's complement). -/
def ofUInt32bits (n : Nat) : Int :=
  if n % 4294967296 < 2147483648 then ((n % 4294967296 : Nat) : Int)
  else ((n % 4294967296 : Nat) : Int) - 4294967296

/-- Arithmetic shift right by 15 of a 32-bit two's-complement bit pattern:
the low 17 bits of the result are the high 17 bits of the input, and the top
15 bits are copies of the input's sign bit. -/
def int32_asr15 (n : Nat) : Nat :=
  if n % 4294967296 < 2147483648 then (n % 4294967296) >>> 15
  else ((n % 4294967296) >>> 15) + 4294836224

def Q15_mult (a b : Int) : Int := ofUInt32bits (int32_asr15 (toUInt32bits (a * b)))

/-! ### BAM16 quadrant predicates (DSP.h)

Each macro tests the two most significant bits of the 16-bit angle.  The C
integer promotions only affect bits above bit 15, which none of the masks
inspect, so the unsigned subtraction/addition inside `BAM16_Quad23` /
`BAM16_Quad14` is modelled modulo `2^16`. -/

def BAM16_Quad4 (x : Nat) : Bool := 0xC000 == (x &&& 0xC000)

def BAM16_Quad3 (x : Nat) : Bool := 0x8000 == (x &&& 0xC000)

def BAM16_Quad2 (x : Nat) : Bool := 0x4000 == (x &&& 0xC000)

def BAM16_Quad1 (x : Nat) : Bool := 0x0000 == (x &&& 0xC000)

def BAM16_Quad13 (x : Nat) : Bool := x &&& 0x4000 == 0

def BAM16_Quad12 (x : Nat) : Bool := x &&& 0x8000 == 0

def BAM16_Quad34 (x : Nat) : Bool := !(BAM16_Quad12 x)

def BAM16_Quad24 (x : Nat) : Bool := !(BAM16_Quad13 x)

def BAM16_Quad23 (x : Nat) : Bool := BAM16_Quad12 ((x + (65536 - 0x4000)) % 65536)

def BAM16_Quad14 (x : Nat) : Bool := BAM16_Quad12 ((x + 0x4000) % 65536)

/-! ### The circular SampleBuffer (samples.h / samples.cpp)

The C struct holds `uint16_t buff[256]` and two `uint8_t` indices `in` and
`out`; both indices wrap at 256 by their type.  The store is modelled as a
total function on `Fin 256` and the indices as `Fin 256`.  `Q_15` samples
cross the boundary through the C conversions `int16_t → uint16_t` (reduce
modulo `2^16`) on push and `uint16_t → int16_t` (two's complement value of the
low 16 bits) on pop. -/

abbrev SAMPLE_BUFFER_SIZE : Nat := 256

structure SampleBuffer where
  buff : Fin SAMPLE_BUFFER_SIZE → Nat
  inIdx : Fin SAMPLE_BUFFER_SIZE
  outIdx : Fin SAMPLE_BUFFER_SIZE

/-- Advance a `uint8_t` index by one, wrapping at 256 (`sb->in++`). -/
def idxStep (i : Fin 256) : Fin 256 := ⟨(i.val + 1) % 256, Nat.mod_lt _ (by norm_num)⟩

/-- Advance a `uint8_t` index by `n`, wrapping at 256. -/
def idxAdd (i : Fin 256) (n : Nat) : Fin 256 := ⟨(i.val + n) % 256, Nat.mod_lt _ (by norm_num)⟩

/-- `SampleBuffer_init`: `sb->in=0; sb->out=0;` (the store is untouched). -/
def SampleBuffer_init (sb : SampleBuffer) : SampleBuffer :=
  { sb with inIdx := 0, outIdx := 0 }

/-- `SampleBuffer_size`: `uint8_t tmp = sb->in - sb->out;` — wrapping 8-bit
subtraction. -/
def SampleBuffer_size (sb : SampleBuffer) : Nat :=
  (sb.inIdx.val + 256 - sb.outIdx.val) % 256

/-- `SampleBuffer_free`: `uint8_t tmp = ~sb->in + sb->out;` — the 8-bit
complement of `in` (`255 - in`) plus `out`, wrapping at 256. -/
def SampleBuffer_free (sb : SampleBuffer) : Nat :=
  ((255 - sb.inIdx.val) + sb.outIdx.val) % 256

/-- `SampleBuffer_empty`: `sb->in == sb->out`. -/
def SampleBuffer_empty (sb : SampleBuffer) : Bool := sb.inIdx == sb.outIdx

/-- `SampleBuffer_full`: `!(uint8_t)(~sb->in + sb->out)`. -/
def SampleBuffer_full (sb : SampleBuffer) : Bool := SampleBuffer_free sb == 0

/-- `SampleBuffer_push`: `sb->buff[sb->in++]=sample;` — the sample is stored
through the `uint16_t` cell. -/
def SampleBuffer_push (sb : SampleBuffer) (sample : Nat) : SampleBuffer :=
  { sb with buff := Function.update sb.buff sb.inIdx (sample % 65536),
            inIdx := idxStep sb.inIdx }

/-- `SampleBuffer_pop`: `return sb->buff[sb->out++];`. -/
def SampleBuffer_pop (sb : SampleBuffer) : Nat × SampleBuffer :=
  (sb.buff sb.outIdx, { sb with outIdx := idxStep sb.outIdx })

/-- C conversion `int16_t → uint16_t` applied to a `Q_15` sample. -/
def uint16_ofQ15 (v : Int) : Nat := (v % 65536).toNat

/-- C conversion `uint16_t → int16_t`: the two's-complement value of the low
16 bits. -/
def q15_ofUint16 (n : Nat) : Int :=
  if n % 65536 < 32768 then ((n % 65536 : Nat) : Int)
  else ((n % 65536 : Nat) : Int) - 65536

/-- The pop loop of `SampleBuffer_popAllOrNothing`:
`for(i=0;i<count;++i) *buf++ = SampleBuffer_pop(sb);` — each popped `uint16_t`
is stored into a `Q_15` slot. -/
def popListLoop : SampleBuffer → Nat → List Int × SampleBuffer
  | sb, 0 => ([], sb)
  | sb, n + 1 =>
      (q15_ofUint16 (SampleBuffer_pop sb).1 :: (popListLoop (SampleBuffer_pop sb).2 n).1,
       (popListLoop (SampleBuffer_pop sb).2 n).2)

/-- The push loop of `SampleBuffer_pushAllOrNothing`:
`for(i=0;i<count;++i) SampleBuffer_push(sb, *buf++);` — each `Q_15` value is
passed to the `uint16_t` parameter of `SampleBuffer_push`. -/
def pushListLoop : SampleBuffer → List Int → SampleBuffer
  | sb, [] => sb
  | sb, v :: l => pushListLoop (SampleBuffer_push sb (uint16_ofQ15 v)) l

/-- `SampleBuffer_popAllOrNothing`: pops `count` samples into the output list
if at least `count` are stored, otherwise returns 0 and changes nothing. -/
def SampleBuffer_popAllOrNothing (sb : SampleBuffer) (count : Nat) :
    Nat × List Int × SampleBuffer :=
  if SampleBuffer_size sb < count then (0, [], sb)
  else (count, popListLoop sb count)

/-- `SampleBuffer_pushAllOrNothing`: pushes the first `count` samples of `buf`
if at least `count` slots are free, otherwise returns 0 and changes nothing. -/
def SampleBuffer_pushAllOrNothing (sb : SampleBuffer) (buf : List Int) (count : Nat) :
    Nat × SampleBuffer :=
  if SampleBuffer_free sb < count then (0, sb)
  else (count, pushListLoop sb (buf.take count))

/-- The stored samples in first-in-first-out order, as the `Q_15` values a pop
would deliver: the `size` cells starting at `out`. -/
def SampleBuffer_contents (sb : SampleBuffer) : List Int :=
  (List.range (SampleBuffer_size sb)).map
    (fun i => q15_ofUint16 (sb.buff (idxAdd sb.outIdx i)))

/-- A concrete buffer state holding one sample (value 7), used by witnesses. -/
def demoSampleBuffer : SampleBuffer :=
  { buff := fun _ => 7, inIdx := 1, outIdx := 0 }

/-! ### Lemmas about the arithmetic shift -/

lemma int32_asr15_floor (p : Int) (h1 : -1073741824 ≤ p) (h2 : p ≤ 1073741824) :
    ofUInt32bits (int32_asr15 (toUInt32bits p)) = Int.fdiv p 32768 := by
  rw [Int.fdiv_eq_ediv _ (by norm_num)]
  unfold ofUInt32bits int32_asr15 toUInt32bits
  simp only [Nat.shiftRight_eq_div_pow]
  norm_num
  split_ifs <;> omega

/-- Claim C3: for all Q_15 values `a` and `b`, `Q15_mult a b` equals
`⌊a * b / 2^15⌋`: the operands are widened to 32 bits, multiplied exactly, and
arithmetically shifted right 15 bits, truncating toward negative infinity
(`Int.fdiv`), for negative as well as non-negative products. -/
theorem Q15_mult_eq_floor (a b : Int)
    (ha1 : -32768 ≤ a) (ha2 : a ≤ 32767) (hb1 : -32768 ≤ b) (hb2 : b ≤ 32767) :
    Q15_mult a b = Int.fdiv (a * b) 32768 := by
  have hub : a * b ≤ 1073741824 := by nlinarith
  have hlb : -1073741824 ≤ a * b := by nlinarith
  exact int32_asr15_floor (a * b) hlb hub

/-- Witness for C3 at `a = -32768`, `b = 3`:
`Q15_mult (-32768) 3 = ⌊-98304 / 32768⌋ = -3`. -/
theorem Q15_mult_eq_floor_witness :
    (-32768 ≤ (-32768 : Int)) ∧ ((-32768 : Int) ≤ 32767) ∧
    (-32768 ≤ (3 : Int)) ∧ ((3 : Int) ≤ 32767) ∧
    Q15_mult (-32768) 3 = Int.fdiv ((-32768) * 3) 32768 :=
  ⟨by decide, by decide, by decide, by decide,
   Q15_mult_eq_floor (-32768) 3 (by decide) (by decide) (by decide) (by decide)⟩

/-- Claim C7: `Q15_mult Q15_ONE Q15_ONE` equals `Q15_ONE` up to the documented
truncation bias: the result is `0x7FFE`, exactly one least-significant step
below `Q15_ONE = 0x7FFF`. -/
theorem Q15_mult_one_one :
    Q15_mult Q15_ONE Q15_ONE = Q15_ONE - 1 ∧
    Q15_ONE - Q15_mult Q15_ONE Q15_ONE ≤ 1 := by
  constructor <;> decide

/-- Claim C1 counterexample: at `HZ = 2`, `SAMPLE_RATE = 3` the code yields
`⌊2 * 2^16 / 3⌋ = 43690`, while the mathematical quotient `131072/3` lies
strictly between 43690 and 43691 at distances 2/3 and 1/3, so its nearest
integer is 43691 under any tie rule; the code does not round to nearest. -/
theorem FREQUENCY_HZtoBAM16_PER_SAMPLE_not_round :
    FREQUENCY_HZtoBAM16_PER_SAMPLE 2 3 = 43690 ∧
    FREQUENCY_HZtoBAM16_PER_SAMPLE_specRound 2 3 = 43691 ∧
    FREQUENCY_HZtoBAM16_PER_SAMPLE 2 3 ≠ FREQUENCY_HZtoBAM16_PER_SAMPLE_specRound 2 3 ∧
    2 * 65536 - 3 * 43690 = 2 ∧ 3 * 43691 - 2 * 65536 = 1 := by
  refine ⟨by decide, by decide, by decide, by decide, by decide⟩

/-- Claim C1 (amended): for every frequency `hz` and sample rate with
`hz * 2^16` representable in `uint32_t` and the rate positive, the conversion
equals the truncated (floor) quotient `hz * 2^16 / rate`, reduced to 16 bits. -/
theorem FREQUENCY_HZtoBAM16_PER_SAMPLE_eq_floor (hz sampleRate : Nat)
    (hrep : hz * 65536 < 4294967296) (hpos : 0 < sampleRate) :
    FREQUENCY_HZtoBAM16_PER_SAMPLE hz sampleRate = hz * 65536 / sampleRate % 65536 := by
  unfold FREQUENCY_HZtoBAM16_PER_SAMPLE
  rw [Nat.shiftLeft_eq]
  norm_num
  rw [Nat.mod_eq_of_lt hrep]

/-- Witness for C1 (amended) at `hz = 2`, rate 3. -/
theorem FREQUENCY_HZtoBAM16_PER_SAMPLE_eq_floor_witness :
    2 * 65536 < 4294967296 ∧ 0 < 3 ∧
    FREQUENCY_HZtoBAM16_PER_SAMPLE 2 3 = 2 * 65536 / 3 % 65536 :=
  ⟨by decide, by decide, FREQUENCY_HZtoBAM16_PER_SAMPLE_eq_floor 2 3 (by decide) (by decide)⟩

/-- Claim C5: BAM16 arithmetic is modular with period `2^16`: angles differing
by a whole turn coincide (`DEG2BAM16 360 = DEG2BAM16 0 = 0`,
`DEG2BAM16 (-90) = DEG2BAM16 270 = 0xC000`,
`DEG2BAM16 (-180) = DEG2BAM16 180 = 0x8000`), and for all 16-bit `a`, `b`,
`(a + b) - b = a` with wrapping addition and subtraction. -/
theorem BAM16_modular_arithmetic (a b : Nat) (ha : a < 65536) (hb : b < 65536) :
    DEG2BAM16 360 = DEG2BAM16 0 ∧ DEG2BAM16 0 = 0x0000 ∧
    DEG2BAM16 (-90) = DEG2BAM16 270 ∧ DEG2BAM16 270 = 0xC000 ∧
    DEG2BAM16 (-180) = DEG2BAM16 180 ∧ DEG2BAM16 180 = 0x8000 ∧
    BAM16_sub (BAM16_add a b) b = a := by
  refine ⟨by decide, by decide, by decide, by decide, by decide, by decide, ?_⟩
  unfold BAM16_sub BAM16_add
  omega

/-- Witness for C5 at `a = 0xF000`, `b = 0x9000` (the sum wraps past `2^16`). -/
theorem BAM16_modular_arithmetic_witness :
    0xF000 < 65536 ∧ 0x9000 < 65536 ∧ BAM16_sub (BAM16_add 0xF000 0x9000) 0x9000 = 0xF000 :=
  ⟨by decide, by decide, (BAM16_modular_arithmetic 0xF000 0x9000 (by decide) (by decide)).2.2.2.2.2.2⟩

/-- Claim C6: `BAM8toBAM16 v = v * 256` for every BAM8 value `v`,
`BAM16toBAM8 w = w / 256` (truncated) for every BAM16 value `w`, and the
round trip `BAM16toBAM8 (BAM8toBAM16 v) = v` holds. -/
theorem BAM8_BAM16_conversion (v w : Nat) (hv : v < 256) (hw : w < 65536) :
    BAM8toBAM16 v = v * 256 ∧ BAM16toBAM8 w = w / 256 ∧
    BAM16toBAM8 (BAM8toBAM16 v) = v := by
  unfold BAM8toBAM16 BAM16toBAM8
  simp only [Nat.shiftLeft_eq, Nat.shiftRight_eq_div_pow]
  norm_num
  omega

/-- Witness for C6 at `v = 0xAB`, `w = 0x1234`. -/
theorem BAM8_BAM16_conversion_witness :
    0xAB < 256 ∧ 0x1234 < 65536 ∧ BAM16toBAM8 (BAM8toBAM16 0xAB) = 0xAB :=
  ⟨by decide, by decide, (BAM8_BAM16_conversion 0xAB 0x1234 (by decide) (by decide)).2.2⟩

/-! ### Bitmask characterizations -/

lemma and_two_pow_div_mod (x i : Nat) : x &&& 2 ^ i = x / 2 ^ i % 2 * 2 ^ i := by
  rw [Nat.and_two_pow, Nat.testBit_to_div_mod]
  rcases Nat.mod_two_eq_zero_or_one (x / 2 ^ i) with h | h <;> simp [h]

lemma and_mask_8000 (x : Nat) : x &&& 32768 = x / 32768 % 2 * 32768 := by
  have h := and_two_pow_div_mod x 15
  norm_num at h
  exact h

lemma and_mask_4000 (x : Nat) : x &&& 16384 = x / 16384 % 2 * 16384 := by
  have h := and_two_pow_div_mod x 14
  norm_num at h
  exact h

lemma and_mask_c000 (x : Nat) : x &&& 49152 = x / 16384 % 4 * 16384 := by
  have hsplit : (49152 : Nat) = 32768 ||| 16384 := by decide
  have hdd : x / 32768 = x / 16384 / 2 := by
    rw [Nat.div_div_eq_div_mul]
  rw [hsplit, Nat.and_or_distrib_left, and_mask_8000, and_mask_4000, hdd]
  rcases Nat.mod_two_eq_zero_or_one (x / 16384 / 2) with h2 | h2 <;>
    rcases Nat.mod_two_eq_zero_or_one (x / 16384) with h1 | h1 <;>
      rw [h1, h2]
  · have e : (0 * 32768 : Nat) ||| (0 * 16384) = 0 := by decide
    rw [e]; omega
  · have e : (0 * 32768 : Nat) ||| (1 * 16384) = 16384 := by decide
    rw [e]; omega
  · have e : (1 * 32768 : Nat) ||| (0 * 16384) = 32768 := by decide
    rw [e]; omega
  · have e : (1 * 32768 : Nat) ||| (1 * 16384) = 49152 := by decide
    rw [e]; omega

/-! ### Interval characterizations of the quadrant predicates -/

lemma BAM16_Quad1_iff (x : Nat) (hx : x < 65536) : BAM16_Quad1 x = true ↔ x < 0x4000 := by
  simp only [BAM16_Quad1, beq_iff_eq, and_mask_c000]
  omega

lemma BAM16_Quad2_iff (x : Nat) (hx : x < 65536) :
    BAM16_Quad2 x = true ↔ 0x4000 ≤ x ∧ x < 0x8000 := by
  simp only [BAM16_Quad2, beq_iff_eq, and_mask_c000]
  omega

lemma BAM16_Quad3_iff (x : Nat) (hx : x < 65536) :
    BAM16_Quad3 x = true ↔ 0x8000 ≤ x ∧ x < 0xC000 := by
  simp only [BAM16_Quad3, beq_iff_eq, and_mask_c000]
  omega

lemma BAM16_Quad4_iff (x : Nat) (hx : x < 65536) : BAM16_Quad4 x = true ↔ 0xC000 ≤ x := by
  simp only [BAM16_Quad4, beq_iff_eq, and_mask_c000]
  omega

lemma BAM16_Quad12_iff (x : Nat) (hx : x < 65536) : BAM16_Quad12 x = true ↔ x < 0x8000 := by
  simp only [BAM16_Quad12, beq_iff_eq, and_mask_8000]
  omega

lemma BAM16_Quad13_iff (x : Nat) (hx : x < 65536) :
    BAM16_Quad13 x = true ↔ x < 0x4000 ∨ (0x8000 ≤ x ∧ x < 0xC000) := by
  simp only [BAM16_Quad13, beq_iff_eq, and_mask_4000]
  omega

lemma BAM16_Quad34_iff (x : Nat) (hx : x < 65536) : BAM16_Quad34 x = true ↔ 0x8000 ≤ x := by
  simp only [BAM16_Quad34, BAM16_Quad12, Bool.not_eq_true', beq_eq_false_iff_ne, Ne,
    and_mask_8000]
  omega

lemma BAM16_Quad24_iff (x : Nat) (hx : x < 65536) :
    BAM16_Quad24 x = true ↔ (0x4000 ≤ x ∧ x < 0x8000) ∨ 0xC000 ≤ x := by
  simp only [BAM16_Quad24, BAM16_Quad13, Bool.not_eq_true', beq_eq_false_iff_ne, Ne,
    and_mask_4000]
  omega

lemma BAM16_Quad23_iff (x : Nat) (hx : x < 65536) :
    BAM16_Quad23 x = true ↔ 0x4000 ≤ x ∧ x < 0xC000 := by
  simp only [BAM16_Quad23, BAM16_Quad12, beq_iff_eq, and_mask_8000]
  omega

lemma BAM16_Quad14_iff (x : Nat) (hx : x < 65536) :
    BAM16_Quad14 x = true ↔ x < 0x4000 ∨ 0xC000 ≤ x := by
  simp only [BAM16_Quad14, BAM16_Quad12, beq_iff_eq, and_mask_8000]
  omega

/-- Claim C4: for every BAM16 angle `x`, the quadrant predicates classify `x`
by its two most significant bits: `Quad1` holds iff `x ∈ [0x0000, 0x4000)`,
`Quad2` iff `x ∈ [0x4000, 0x8000)`, `Quad3` iff `x ∈ [0x8000, 0xC000)`,
`Quad4` iff `x ∈ [0xC000, 0x10000)`; exactly one of the four holds; and each
union predicate holds iff one of its two constituent quadrant predicates
holds. -/
theorem BAM16_quadrant_classification (x : Nat) (hx : x < 65536) :
    (BAM16_Quad1 x = true ↔ x < 0x4000) ∧
    (BAM16_Quad2 x = true ↔ 0x4000 ≤ x ∧ x < 0x8000) ∧
    (BAM16_Quad3 x = true ↔ 0x8000 ≤ x ∧ x < 0xC000) ∧
    (BAM16_Quad4 x = true ↔ 0xC000 ≤ x) ∧
    (BAM16_Quad1 x).toNat + (BAM16_Quad2 x).toNat
      + (BAM16_Quad3 x).toNat + (BAM16_Quad4 x).toNat = 1 ∧
    (BAM16_Quad12 x = true ↔ BAM16_Quad1 x = true ∨ BAM16_Quad2 x = true) ∧
    (BAM16_Quad13 x = true ↔ BAM16_Quad1 x = true ∨ BAM16_Quad3 x = true) ∧
    (BAM16_Quad14 x = true ↔ BAM16_Quad1 x = true ∨ BAM16_Quad4 x = true) ∧
    (BAM16_Quad23 x = true ↔ BAM16_Quad2 x = true ∨ BAM16_Quad3 x = true) ∧
    (BAM16_Quad24 x = true ↔ BAM16_Quad2 x = true ∨ BAM16_Quad4 x = true) ∧
    (BAM16_Quad34 x = true ↔ BAM16_Quad3 x = true ∨ BAM16_Quad4 x = true) := by
  have h1 := BAM16_Quad1_iff x hx
  have h2 := BAM16_Quad2_iff x hx
  have h3 := BAM16_Quad3_iff x hx
  have h4 := BAM16_Quad4_iff x hx
  have h12 := BAM16_Quad12_iff x hx
  have h13 := BAM16_Quad13_iff x hx
  have h14 := BAM16_Quad14_iff x hx
  have h23 := BAM16_Quad23_iff x hx
  have h24 := BAM16_Quad24_iff x hx
  have h34 := BAM16_Quad34_iff x hx
  refine ⟨h1, h2, h3, h4, ?_, ?_, ?_, ?_, ?_, ?_, ?_⟩
  · cases hb1 : BAM16_Quad1 x <;> cases hb2 : BAM16_Quad2 x <;>
      cases hb3 : BAM16_Quad3 x <;> cases hb4 : BAM16_Quad4 x <;>
      simp_all <;> omega
  · rw [h12, h1, h2] <;> omega
  · rw [h13, h1, h3] <;> omega
  · rw [h14, h1, h4] <;> omega
  · rw [h23, h2, h3] <;> omega
  · rw [h24, h2, h4] <;> omega
  · rw [h34, h3, h4] <;> omega

/-- Witness for C4 at `x = 0x5000` (second quadrant). -/
theorem BAM16_quadrant_classification_witness :
    0x5000 < 65536 ∧ (BAM16_Quad2 0x5000 = true ↔ 0x4000 ≤ 0x5000 ∧ 0x5000 < 0x8000) :=
  ⟨by decide, (BAM16_quadrant_classification 0x5000 (by decide)).2.1⟩

/-! ### Basic SampleBuffer lemmas -/

lemma SampleBuffer_size_add_free (sb : SampleBuffer) :
    SampleBuffer_size sb + SampleBuffer_free sb = 255 := by
  have hi : sb.inIdx.val < 256 := sb.inIdx.isLt
  have ho : sb.outIdx.val < 256 := sb.outIdx.isLt
  unfold SampleBuffer_size SampleBuffer_free
  omega

lemma SampleBuffer_size_lt (sb : SampleBuffer) : SampleBuffer_size sb < 256 :=
  Nat.mod_lt _ (by norm_num)

lemma SampleBuffer_free_lt (sb : SampleBuffer) : SampleBuffer_free sb < 256 :=
  Nat.mod_lt _ (by norm_num)

lemma SampleBuffer_inIdx_eq (sb : SampleBuffer) :
    sb.inIdx = idxAdd sb.outIdx (SampleBuffer_size sb) := by
  have hi : sb.inIdx.val < 256 := sb.inIdx.isLt
  have ho : sb.outIdx.val < 256 := sb.outIdx.isLt
  apply Fin.ext
  unfold idxAdd SampleBuffer_size
  dsimp only
  omega

lemma SampleBuffer_push_outIdx (sb : SampleBuffer) (v : Nat) :
    (SampleBuffer_push sb v).outIdx = sb.outIdx := rfl

lemma SampleBuffer_size_push (sb : SampleBuffer) (v : Nat)
    (h : SampleBuffer_free sb ≠ 0) :
    SampleBuffer_size (SampleBuffer_push sb v) = SampleBuffer_size sb + 1 := by
  have hi : sb.inIdx.val < 256 := sb.inIdx.isLt
  have ho : sb.outIdx.val < 256 := sb.outIdx.isLt
  unfold SampleBuffer_size SampleBuffer_free SampleBuffer_push idxStep at *
  dsimp only at *
  omega

lemma SampleBuffer_free_push (sb : SampleBuffer) (v : Nat)
    (h : SampleBuffer_free sb ≠ 0) :
    SampleBuffer_free (SampleBuffer_push sb v) = SampleBuffer_free sb - 1 := by
  have h1 := SampleBuffer_size_add_free sb
  have h2 := SampleBuffer_size_add_free (SampleBuffer_push sb v)
  have h3 := SampleBuffer_size_push sb v h
  omega

lemma SampleBuffer_size_pop (sb : SampleBuffer)
    (h : SampleBuffer_size sb ≠ 0) :
    SampleBuffer_size (SampleBuffer_pop sb).2 = SampleBuffer_size sb - 1 := by
  have hi : sb.inIdx.val < 256 := sb.inIdx.isLt
  have ho : sb.outIdx.val < 256 := sb.outIdx.isLt
  unfold SampleBuffer_size SampleBuffer_pop idxStep at *
  dsimp only at *
  omega

lemma SampleBuffer_contents_push (sb : SampleBuffer) (v : Nat)
    (h : SampleBuffer_free sb ≠ 0) :
    SampleBuffer_contents (SampleBuffer_push sb v) =
      SampleBuffer_contents sb ++ [q15_ofUint16 (v % 65536)] := by
  have hs := SampleBuffer_size_push sb v h
  have hof := SampleBuffer_size_add_free sb
  have ho : sb.outIdx.val < 256 := sb.outIdx.isLt
  have hlt := SampleBuffer_size_lt sb
  unfold SampleBuffer_contents
  rw [hs]
  dsimp only [SampleBuffer_push]
  rw [List.range_succ, List.map_append]
  congr 1
  · apply List.map_congr_left
    intro i hi
    have hilt := List.mem_range.mp hi
    have hne : idxAdd sb.outIdx i ≠ sb.inIdx := by
      rw [SampleBuffer_inIdx_eq sb]
      intro hEq
      have hv := congrArg Fin.val hEq
      unfold idxAdd at hv
      dsimp only at hv
      omega
    rw [Function.update_noteq hne]
  · rw [List.map_singleton, ← SampleBuffer_inIdx_eq sb, Function.update_same]

lemma SampleBuffer_contents_pop (sb : SampleBuffer) (h : SampleBuffer_size sb ≠ 0) :
    SampleBuffer_contents sb =
      q15_ofUint16 (sb.buff sb.outIdx) :: SampleBuffer_contents (SampleBuffer_pop sb).2 := by
  have hp := SampleBuffer_size_pop sb h
  have ho : sb.outIdx.val < 256 := sb.outIdx.isLt
  obtain ⟨d, hd⟩ : ∃ d, SampleBuffer_size sb = d + 1 :=
    ⟨SampleBuffer_size sb - 1, by omega⟩
  have hp2 : SampleBuffer_size (SampleBuffer_pop sb).2 = d := by omega
  unfold SampleBuffer_contents
  rw [hd, hp2, List.range_succ_eq_map, List.map_cons, List.map_map]
  congr 1
  · have h0 : idxAdd sb.outIdx 0 = sb.outIdx := by
      apply Fin.ext
      unfold idxAdd
      dsimp only
      omega
    rw [h0]
  · apply List.map_congr_left
    intro i hi
    dsimp only [Function.comp, SampleBuffer_pop]
    have hstep : idxAdd sb.outIdx (Nat.succ i) = idxAdd (idxStep sb.outIdx) i := by
      apply Fin.ext
      unfold idxAdd idxStep
      dsimp only
      omega
    rw [hstep]

lemma popListLoop_state (sb : SampleBuffer) (n : Nat) :
    (popListLoop sb n).2 = { sb with outIdx := idxAdd sb.outIdx n } := by
  induction n generalizing sb with
  | zero =>
      have h0 : idxAdd sb.outIdx 0 = sb.outIdx := by
        apply Fin.ext
        unfold idxAdd
        dsimp only
        have hlt : sb.outIdx.val < 256 := sb.outIdx.isLt
        omega
      show sb = _
      rw [h0]
  | succ n ih =>
      show (popListLoop (SampleBuffer_pop sb).2 n).2 = _
      rw [ih]
      congr 1
      apply Fin.ext
      dsimp only [SampleBuffer_pop, idxAdd, idxStep]
      have hlt : sb.outIdx.val < 256 := sb.outIdx.isLt
      omega

lemma popListLoop_fst (sb : SampleBuffer) (n : Nat) (h : n ≤ SampleBuffer_size sb) :
    (popListLoop sb n).1 = (SampleBuffer_contents sb).take n := by
  induction n generalizing sb with
  | zero => rfl
  | succ n ih =>
      have hne : SampleBuffer_size sb ≠ 0 := by omega
      have hle : n ≤ SampleBuffer_size (SampleBuffer_pop sb).2 := by
        rw [SampleBuffer_size_pop sb hne]
        omega
      rw [SampleBuffer_contents_pop sb hne, List.take_succ_cons]
      show q15_ofUint16 (SampleBuffer_pop sb).1 :: (popListLoop (SampleBuffer_pop sb).2 n).1 = _
      rw [ih _ hle]
      rfl

lemma SampleBuffer_contents_popListLoop (sb : SampleBuffer) (n : Nat)
    (h : n ≤ SampleBuffer_size sb) :
    SampleBuffer_contents (popListLoop sb n).2 = (SampleBuffer_contents sb).drop n := by
  induction n generalizing sb with
  | zero => rfl
  | succ n ih =>
      have hne : SampleBuffer_size sb ≠ 0 := by omega
      have hle : n ≤ SampleBuffer_size (SampleBuffer_pop sb).2 := by
        rw [SampleBuffer_size_pop sb hne]
        omega
      rw [SampleBuffer_contents_pop sb hne, List.drop_succ_cons]
      show SampleBuffer_contents (popListLoop (SampleBuffer_pop sb).2 n).2 = _
      exact ih _ hle

lemma pushListLoop_outIdx (sb : SampleBuffer) (l : List Int) :
    (pushListLoop sb l).outIdx = sb.outIdx := by
  induction l generalizing sb with
  | nil => rfl
  | cons v l ih =>
      show (pushListLoop (SampleBuffer_push sb (uint16_ofQ15 v)) l).outIdx = _
      rw [ih]
      rfl

lemma SampleBuffer_size_pushListLoop (sb : SampleBuffer) (l : List Int)
    (h : l.length ≤ SampleBuffer_free sb) :
    SampleBuffer_size (pushListLoop sb l) = SampleBuffer_size sb + l.length := by
  induction l generalizing sb with
  | nil => rfl
  | cons v l ih =>
      have hlen : l.length + 1 ≤ SampleBuffer_free sb := by simpa using h
      have hne : SampleBuffer_free sb ≠ 0 := by omega
      have hle : l.length ≤ SampleBuffer_free (SampleBuffer_push sb (uint16_ofQ15 v)) := by
        rw [SampleBuffer_free_push sb _ hne]
        omega
      show SampleBuffer_size (pushListLoop (SampleBuffer_push sb (uint16_ofQ15 v)) l) = _
      rw [ih _ hle, SampleBuffer_size_push sb _ hne]
      simp only [List.length_cons]
      omega

lemma SampleBuffer_contents_pushListLoop (sb : SampleBuffer) (l : List Int)
    (h : l.length ≤ SampleBuffer_free sb) :
    SampleBuffer_contents (pushListLoop sb l) =
      SampleBuffer_contents sb ++ l.map (fun v => q15_ofUint16 (uint16_ofQ15 v)) := by
  induction l generalizing sb with
  | nil => simp [pushListLoop]
  | cons v l ih =>
      have hlen : l.length + 1 ≤ SampleBuffer_free sb := by simpa using h
      have hne : SampleBuffer_free sb ≠ 0 := by omega
      have hle : l.length ≤ SampleBuffer_free (SampleBuffer_push sb (uint16_ofQ15 v)) := by
        rw [SampleBuffer_free_push sb _ hne]
        omega
      have hmod : uint16_ofQ15 v % 65536 = uint16_ofQ15 v := by
        unfold uint16_ofQ15
        omega
      show SampleBuffer_contents (pushListLoop (SampleBuffer_push sb (uint16_ofQ15 v)) l) = _
      rw [ih _ hle, SampleBuffer_contents_push sb _ hne, hmod]
      simp [List.append_assoc]

lemma q15_roundtrip (v : Int) (h1 : -32768 ≤ v) (h2 : v < 32768) :
    q15_ofUint16 (uint16_ofQ15 v) = v := by
  unfold q15_ofUint16 uint16_ofQ15
  split_ifs <;> omega

lemma map_conv_of_range (l : List Int) (h : ∀ v ∈ l, -32768 ≤ v ∧ v < 32768) :
    l.map (fun v => q15_ofUint16 (uint16_ofQ15 v)) = l := by
  induction l with
  | nil => rfl
  | cons v l ih =>
      have hv := h v (by simp)
      rw [List.map_cons, q15_roundtrip v hv.1 hv.2, ih (fun w hw => h w (by simp [hw]))]

lemma SampleBuffer_size_init (sb : SampleBuffer) :
    SampleBuffer_size (SampleBuffer_init sb) = 0 := by
  simp [SampleBuffer_size, SampleBuffer_init]

lemma SampleBuffer_free_init (sb : SampleBuffer) :
    SampleBuffer_free (SampleBuffer_init sb) = 255 := by
  simp [SampleBuffer_free, SampleBuffer_init]

lemma SampleBuffer_contents_init (sb : SampleBuffer) :
    SampleBuffer_contents (SampleBuffer_init sb) = [] := by
  simp [SampleBuffer_contents, SampleBuffer_size_init]

/-- Claim C2: the transfer primitives are all-or-nothing.  When at least
`count` samples are stored, `SampleBuffer_popAllOrNothing` returns `count`,
delivers the oldest `count` samples in order, and the new state is the old one
with only the read index advanced by `count` (the remaining contents are the
old contents with the first `count` dropped); otherwise it returns 0 and the
state is completely unchanged.  Symmetrically, when free space is at least
`count`, `SampleBuffer_pushAllOrNothing` returns `count` and appends the first
`count` samples of `buf` in order; otherwise it returns 0 and the state is
completely unchanged.  No partial transfer ever happens. -/
theorem SampleBuffer_transfer_allOrNothing (sb : SampleBuffer) (buf : List Int) (count : Nat)
    (hbuf : ∀ v ∈ buf, -32768 ≤ v ∧ v < 32768) :
    (count ≤ SampleBuffer_size sb →
      (SampleBuffer_popAllOrNothing sb count).1 = count ∧
      (SampleBuffer_popAllOrNothing sb count).2.1 = (SampleBuffer_contents sb).take count ∧
      (SampleBuffer_popAllOrNothing sb count).2.2 =
        { sb with outIdx := idxAdd sb.outIdx count } ∧
      SampleBuffer_contents (SampleBuffer_popAllOrNothing sb count).2.2 =
        (SampleBuffer_contents sb).drop count) ∧
    (SampleBuffer_size sb < count →
      SampleBuffer_popAllOrNothing sb count = (0, [], sb)) ∧
    (count ≤ SampleBuffer_free sb → count ≤ buf.length →
      (SampleBuffer_pushAllOrNothing sb buf count).1 = count ∧
      (SampleBuffer_pushAllOrNothing sb buf count).2.outIdx = sb.outIdx ∧
      SampleBuffer_contents (SampleBuffer_pushAllOrNothing sb buf count).2 =
        SampleBuffer_contents sb ++ buf.take count) ∧
    (SampleBuffer_free sb < count →
      SampleBuffer_pushAllOrNothing sb buf count = (0, sb)) := by
  refine ⟨?_, ?_, ?_, ?_⟩
  · intro h
    have hnot : ¬ SampleBuffer_size sb < count := by omega
    unfold SampleBuffer_popAllOrNothing
    rw [if_neg hnot]
    dsimp only
    exact ⟨rfl, popListLoop_fst sb count h, popListLoop_state sb count,
      SampleBuffer_contents_popListLoop sb count h⟩
  · intro h
    unfold SampleBuffer_popAllOrNothing
    rw [if_pos h]
  · intro h1 h2
    have hnot : ¬ SampleBuffer_free sb < count := by omega
    have htk : (buf.take count).length ≤ SampleBuffer_free sb := by
      rw [List.length_take]
      omega
    unfold SampleBuffer_pushAllOrNothing
    rw [if_neg hnot]
    dsimp only
    refine ⟨rfl, pushListLoop_outIdx sb _, ?_⟩
    rw [SampleBuffer_contents_pushListLoop sb _ htk,
      map_conv_of_range _ (fun v hv => hbuf v (List.take_subset _ _ hv))]
  · intro h
    unfold SampleBuffer_pushAllOrNothing
    rw [if_pos h]

/-- Witness for C2: on a buffer holding one sample, popping one succeeds and
returns 1. -/
theorem SampleBuffer_transfer_allOrNothing_witness :
    (∀ v ∈ [(5 : Int)], -32768 ≤ v ∧ v < 32768) ∧
    1 ≤ SampleBuffer_size demoSampleBuffer ∧
    (SampleBuffer_popAllOrNothing demoSampleBuffer 1).1 = 1 :=
  ⟨by decide, by decide,
   ((SampleBuffer_transfer_allOrNothing demoSampleBuffer [5] 1 (by decide)).1 (by decide)).1⟩

/-- Claim C8: for every buffer state (any index values),
`size + free = SAMPLE_BUFFER_SIZE - 1 = 255`, and the equation is preserved by
`SampleBuffer_init`, `SampleBuffer_push`, `SampleBuffer_pop`,
`SampleBuffer_pushAllOrNothing` and `SampleBuffer_popAllOrNothing` (it holds at
every state those operations produce). -/
theorem SampleBuffer_size_free_invariant (sb : SampleBuffer) (v : Nat)
    (buf : List Int) (count : Nat) :
    SAMPLE_BUFFER_SIZE - 1 = 255 ∧
    SampleBuffer_size sb + SampleBuffer_free sb = 255 ∧
    SampleBuffer_size (SampleBuffer_init sb) + SampleBuffer_free (SampleBuffer_init sb) = 255 ∧
    SampleBuffer_size (SampleBuffer_push sb v) + SampleBuffer_free (SampleBuffer_push sb v) = 255 ∧
    SampleBuffer_size (SampleBuffer_pop sb).2 + SampleBuffer_free (SampleBuffer_pop sb).2 = 255 ∧
    SampleBuffer_size (SampleBuffer_pushAllOrNothing sb buf count).2 +
      SampleBuffer_free (SampleBuffer_pushAllOrNothing sb buf count).2 = 255 ∧
    SampleBuffer_size (SampleBuffer_popAllOrNothing sb count).2.2 +
      SampleBuffer_free (SampleBuffer_popAllOrNothing sb count).2.2 = 255 :=
  ⟨rfl, SampleBuffer_size_add_free _, SampleBuffer_size_add_free _,
   SampleBuffer_size_add_free _, SampleBuffer_size_add_free _,
   SampleBuffer_size_add_free _, SampleBuffer_size_add_free _⟩

/-- Claim C9: pushing a list of `n ≤ 255` Q_15 samples onto a freshly
initialized buffer succeeds (returns `n`), and popping `n` samples afterwards
succeeds and returns exactly the same list in the same order. -/
theorem SampleBuffer_fifo_roundtrip (sb0 : SampleBuffer) (l : List Int)
    (hlen : l.length ≤ 255) (hvals : ∀ v ∈ l, -32768 ≤ v ∧ v < 32768) :
    (SampleBuffer_pushAllOrNothing (SampleBuffer_init sb0) l l.length).1 = l.length ∧
    (SampleBuffer_popAllOrNothing
      (SampleBuffer_pushAllOrNothing (SampleBuffer_init sb0) l l.length).2 l.length).1
      = l.length ∧
    (SampleBuffer_popAllOrNothing
      (SampleBuffer_pushAllOrNothing (SampleBuffer_init sb0) l l.length).2 l.length).2.1
      = l := by
  have hfree : SampleBuffer_free (SampleBuffer_init sb0) = 255 := SampleBuffer_free_init sb0
  have hsz0 : SampleBuffer_size (SampleBuffer_init sb0) = 0 := SampleBuffer_size_init sb0
  have hnot : ¬ SampleBuffer_free (SampleBuffer_init sb0) < l.length := by omega
  have hlenfree : l.length ≤ SampleBuffer_free (SampleBuffer_init sb0) := by omega
  have hsz2 : SampleBuffer_size (pushListLoop (SampleBuffer_init sb0) l) = l.length := by
    rw [SampleBuffer_size_pushListLoop _ _ hlenfree, hsz0]
    omega
  have hcont2 : SampleBuffer_contents (pushListLoop (SampleBuffer_init sb0) l) = l := by
    rw [SampleBuffer_contents_pushListLoop _ _ hlenfree, SampleBuffer_contents_init,
      map_conv_of_range l hvals, List.nil_append]
  have hpush : SampleBuffer_pushAllOrNothing (SampleBuffer_init sb0) l l.length =
      (l.length, pushListLoop (SampleBuffer_init sb0) l) := by
    unfold SampleBuffer_pushAllOrNothing
    rw [if_neg hnot, List.take_length]
  rw [hpush]
  dsimp only
  have hnot2 : ¬ SampleBuffer_size (pushListLoop (SampleBuffer_init sb0) l) < l.length := by
    omega
  unfold SampleBuffer_popAllOrNothing
  rw [if_neg hnot2]
  dsimp only
  refine ⟨rfl, rfl, ?_⟩
  rw [popListLoop_fst _ _ (by omega), hcont2, List.take_length]

/-- Witness for C9 with the list `[1, -2, 3]`. -/
theorem SampleBuffer_fifo_roundtrip_witness :
    ([(1 : Int), -2, 3].length ≤ 255) ∧
    (∀ v ∈ [(1 : Int), -2, 3], -32768 ≤ v ∧ v < 32768) ∧
    (SampleBuffer_popAllOrNothing
      (SampleBuffer_pushAllOrNothing (SampleBuffer_init demoSampleBuffer)
        [(1 : Int), -2, 3] [(1 : Int), -2, 3].length).2 [(1 : Int), -2, 3].length).2.1
      = [(1 : Int), -2, 3] :=
  ⟨by decide, by decide,
   (SampleBuffer_fifo_roundtrip demoSampleBuffer [(1 : Int), -2, 3]
     (by decide) (by decide)).2.2⟩

/-- Claim C10: the storage array has `SAMPLE_BUFFER_SIZE = 256` slots but the
usable capacity is 255: `free ≤ 255` in every state, `SampleBuffer_full` holds
exactly when 255 samples are stored, and pushing 256 samples all-or-nothing
returns 0 and changes nothing in every state, the empty buffer included. -/
theorem SampleBuffer_usable_capacity (sb : SampleBuffer) (buf : List Int) :
    SAMPLE_BUFFER_SIZE = 256 ∧
    SampleBuffer_free sb ≤ 255 ∧
    (SampleBuffer_full sb = true ↔ SampleBuffer_size sb = 255) ∧
    SampleBuffer_pushAllOrNothing sb buf 256 = (0, sb) := by
  have h1 := SampleBuffer_size_add_free sb
  refine ⟨rfl, by omega, ?_, ?_⟩
  · unfold SampleBuffer_full
    rw [beq_iff_eq]
    omega
  · unfold SampleBuffer_pushAllOrNothing
    rw [if_pos (by omega)]
